import Mathlib

/-!
Shallow embedding of `vncmatch.py` (pytest-vncmatch): the image matcher
`find`, the file-loading wrapper `find_img`, and the polling loop
`expect_single_img`, together with proofs about them.

Pixels are BGR triples of 8-bit channel values, modelled as naturals.
`cv2.matchTemplate(..., TM_SQDIFF)` computes, at every top-left alignment
(y, x) with 0 ≤ y ≤ H−h and 0 ≤ x ≤ W−w, the sum over the template of the
squared per-channel differences; the result array has shape
(H−h+1) × (W−w+1).  Scores are integer-valued, so the float
comparison `score <= 0.5*h*w` is modelled exactly as `2*score ≤ h*w`.
-/

namespace VncMatch

/-- A color pixel: (blue, green, red) channel values. -/
abbrev Pix := Nat × Nat × Nat

/-- A dense color raster: height, width, and the pixel at (row y, column x). -/
structure Image where
  h : Nat
  w : Nat
  pix : Nat → Nat → Pix

/-- Squared difference of two pixels, summed over the three channels. -/
def pixSqDiff (p q : Pix) : Int :=
  ((p.1 : Int) - q.1) * ((p.1 : Int) - q.1) +
  ((p.2.1 : Int) - q.2.1) * ((p.2.1 : Int) - q.2.1) +
  ((p.2.2 : Int) - q.2.2) * ((p.2.2 : Int) - q.2.2)

/-- TM_SQDIFF score of aligning the top-left corner of the template at (y, x):
sum of squared per-channel differences over the template footprint. -/
def sqdiffAt (screen tmpl : Image) (y x : Nat) : Int :=
  ((List.range tmpl.h).map fun i =>
    ((List.range tmpl.w).map fun j =>
      pixSqDiff (tmpl.pix i j) (screen.pix (y + i) (x + j))).sum).sum

/-- The raw-hit test `match_values <= 0.5 * img.shape[0] * img.shape[1]`,
stated integrally (scores are integers, so `≤ 0.5·h·w` is `2·score ≤ h·w`). -/
def isHit (screen tmpl : Image) (y x : Nat) : Bool :=
  decide (2 * sqdiffAt screen tmpl y x ≤ (tmpl.h * tmpl.w : Int))

/-- `fi_res.matches`: thresholded match array, one row per valid top-left y,
one entry per valid top-left x, 1 at raw hits and 0 elsewhere.  Like the
`cv2.matchTemplate` result it has shape (H−h+1) × (W−w+1). -/
def matchesMask (screen tmpl : Image) : List (List Nat) :=
  (List.range (screen.h - tmpl.h + 1)).map fun y =>
    (List.range (screen.w - tmpl.w + 1)).map fun x =>
      if isHit screen tmpl y x then 1 else 0

/-- `numpy.where(fi_res.matches)` followed by `zip(where[1], where[0])`:
the (x, y) top-left coordinates of the raw hits, in row-major order. -/
def hitList (screen tmpl : Image) : List (Nat × Nat) :=
  ((List.range (screen.h - tmpl.h + 1)).map fun y =>
    ((List.range (screen.w - tmpl.w + 1)).filter fun x =>
      isHit screen tmpl y x).map fun x => (x, y)).flatten

/-- Result of an image search (`FindResult` dataclass): searched image,
screen capture, thresholded match array, and the box list as
(x left, y top, x right, y bottom) tuples. -/
structure FindResult where
  img : Option Image
  screen : Image
  matches_ : Option (List (List Nat))  -- source field name `matches`, a Lean keyword
  coord_list : List (Int × Int × Int × Int)

/-- `VNCMatch.find`: capture is modelled by passing the captured screen in;
with no search image the result holds only the screen, otherwise the match
array is thresholded and each raw hit (xl, yt) becomes the box
(xl, yt, xl + img_w − 1, yt + img_h − 1). -/
def find (screen : Image) (img : Option Image) : FindResult :=
  match img with
  | none => ⟨none, screen, none, []⟩
  | some tmpl =>
      ⟨some tmpl, screen, some (matchesMask screen tmpl),
        (hitList screen tmpl).map fun p =>
          ((p.1 : Int), (p.2 : Int),
           (p.1 : Int) + (tmpl.w : Int) - 1, (p.2 : Int) + (tmpl.h : Int) - 1)⟩

/-- Side effects of a search, used to state that the missing-file assertion
fires before the screen capture and before any matching. -/
inductive Effect where
  | capture
  | matching

/-- `VNCMatch.find_img`: the filesystem is modelled as a map from
file names to optional images.  `assert os.path.isfile(imgname)` precedes the call
to `find` (which captures and matches), so on a missing file no effect
occurs and the failure carries the assertion message. -/
def find_img (fs : String → Option Image) (screen : Image) (imgname : String) :
    List Effect × Except String FindResult :=
  match fs imgname with
  | none => ([], Except.error ("image file " ++ imgname ++ " is missing"))
  | some img => ([Effect.capture, Effect.matching], Except.ok (find screen (some img)))

/-- The centroid computed by `expect_single_img` from a box:
`((xl + xr) // 2, (yt + yb) // 2)` with Python floor division. -/
def centroid (box : Int × Int × Int × Int) : Int × Int :=
  (Int.fdiv (box.1 + box.2.2.1) 2, Int.fdiv (box.2.1 + box.2.2.2) 2)

/-- Observable events of one run of the polling loop: a find attempt with
its result, or a `time.sleep` of the given duration in seconds. -/
inductive PollEvent where
  | findAttempt : FindResult → PollEvent
  | sleep : ℚ → PollEvent

/-- The `while True` loop of `expect_single_img`.  `frames k` is the screen
captured by iteration k and `clock (k+1)` the `time.time()` reading of
the deadline check of iteration k (`clock 0` was read when the deadline was
computed); wall-clock time is exact rational seconds.  Returns the event
trace and, unless the fuel ran out, the outcome: the centroid on a
single-box iteration, or the final message and last `FindResult` handed to
`_output_and_fail` (which raises, so failure never yields a coordinate). -/
def expectLoop (tmpl : Image) (frames : Nat → Image) (clock : Nat → ℚ)
    (deadline timeout : ℚ) :
    Nat → Nat → List PollEvent × Option (Except (String × FindResult) (Int × Int))
  | 0, _ => ([], none)
  | fuel + 1, k =>
      let fr := find (frames k) (some tmpl)
      if fr.coord_list.length = 1 then
        ([PollEvent.findAttempt fr],
         some (Except.ok (centroid fr.coord_list.headI)))
      else if clock (k + 1) > deadline then
        ([PollEvent.findAttempt fr],
         some (Except.error
           ((if fr.coord_list.length > 1 then "image found multiple times"
             else "image not found"), fr)))
      else
        let rest := expectLoop tmpl frames clock deadline timeout fuel (k + 1)
        (PollEvent.findAttempt fr :: PollEvent.sleep (timeout / 10) :: rest.1,
         rest.2)

/-- `VNCMatch.expect_single_img`: computes `end = time.time() + timeout`
(reading `clock 0`) and runs the loop from iteration 0. -/
def expect_single_img (tmpl : Image) (frames : Nat → Image) (clock : Nat → ℚ)
    (timeout : ℚ) (fuel : Nat) :
    List PollEvent × Option (Except (String × FindResult) (Int × Int)) :=
  expectLoop tmpl frames clock (clock 0 + timeout) timeout fuel 0

/-- A solid single-color image. -/
def solidImage (h w : Nat) (p : Pix) : Image := ⟨h, w, fun _ _ => p⟩

/-- 10×10 black frame with a 2×2 white square stamped at (3,3)-(4,4). -/
def frameWithSquare : Image :=
  ⟨10, 10, fun y x =>
    if 3 ≤ y ∧ y ≤ 4 ∧ 3 ≤ x ∧ x ≤ 4 then (255, 255, 255) else (0, 0, 0)⟩

/-- 2×2 all-white template. -/
def whiteTemplate : Image := solidImage 2 2 (255, 255, 255)

/-! ### Helper lemmas -/

theorem mem_hitList (screen tmpl : Image) (x y : Nat) :
    (x, y) ∈ hitList screen tmpl ↔
      x < screen.w - tmpl.w + 1 ∧ y < screen.h - tmpl.h + 1 ∧
      isHit screen tmpl y x = true := by
  constructor
  · intro hmem
    simp only [hitList, List.mem_flatten, List.mem_map, List.mem_range] at hmem
    obtain ⟨l, ⟨y', hy', rfl⟩, hin⟩ := hmem
    simp only [List.mem_map, List.mem_filter, List.mem_range] at hin
    obtain ⟨x', ⟨hx', hhit⟩, hxy⟩ := hin
    simp only [Prod.mk.injEq] at hxy
    obtain ⟨rfl, rfl⟩ := hxy
    exact ⟨hx', hy', hhit⟩
  · rintro ⟨hx, hy, hhit⟩
    simp only [hitList, List.mem_flatten, List.mem_map, List.mem_range]
    refine ⟨_, ⟨y, hy, rfl⟩, ?_⟩
    simp only [List.mem_map, List.mem_filter, List.mem_range]
    exact ⟨x, ⟨hx, hhit⟩, rfl⟩

theorem mem_coord_list (screen tmpl : Image) (l t r b : Int) :
    (l, t, r, b) ∈ (find screen (some tmpl)).coord_list ↔
      ∃ x y : Nat, x < screen.w - tmpl.w + 1 ∧ y < screen.h - tmpl.h + 1 ∧
        isHit screen tmpl y x = true ∧ l = x ∧ t = y ∧
        r = (x : Int) + tmpl.w - 1 ∧ b = (y : Int) + tmpl.h - 1 := by
  simp only [find, List.mem_map]
  constructor
  · rintro ⟨⟨x, y⟩, hp, heq⟩
    obtain ⟨hx, hy, hhit⟩ := (mem_hitList screen tmpl x y).mp hp
    simp only [Prod.mk.injEq] at heq
    obtain ⟨h1, h2, h3, h4⟩ := heq
    exact ⟨x, y, hx, hy, hhit, h1.symm, h2.symm, h3.symm, h4.symm⟩
  · rintro ⟨x, y, hx, hy, hhit, rfl, rfl, rfl, rfl⟩
    exact ⟨(x, y), (mem_hitList screen tmpl x y).mpr ⟨hx, hy, hhit⟩, rfl⟩

theorem isHit_iff (screen tmpl : Image) (y x : Nat) :
    isHit screen tmpl y x = true ↔
      2 * sqdiffAt screen tmpl y x ≤ (tmpl.h * tmpl.w : Int) := by
  simp [isHit]

theorem threshold_rat_iff (s : Int) (hh ww : Nat) :
    2 * s ≤ (hh * ww : Int) ↔ (s : ℚ) ≤ 0.5 * ((hh : ℚ) * (ww : ℚ)) := by
  rw [show (0.5 : ℚ) = 1 / 2 by norm_num, div_mul_eq_mul_div, one_mul,
    le_div_iff₀ (by norm_num : (0 : ℚ) < 2)]
  constructor
  · intro h
    qify at h
    linarith
  · intro h
    qify
    linarith

theorem matchesMask_entry (screen tmpl : Image) (y x : Nat)
    (hy : y < screen.h - tmpl.h + 1) (hx : x < screen.w - tmpl.w + 1) :
    ((matchesMask screen tmpl).getD y []).getD x 0 =
      if isHit screen tmpl y x then 1 else 0 := by
  have hy' : y < (matchesMask screen tmpl).length := by
    simpa [matchesMask] using hy
  rw [List.getD_eq_getElem _ _ hy']
  simp only [matchesMask, List.getElem_map, List.getElem_range]
  have hx' : x < ((List.range (screen.w - tmpl.w + 1)).map fun x' =>
      if isHit screen tmpl y x' then 1 else 0).length := by
    simpa using hx
  rw [List.getD_eq_getElem _ _ hx']
  simp

theorem expectLoop_sleep_duration (tmpl : Image) (frames : Nat → Image)
    (clock : Nat → ℚ) (deadline timeout : ℚ) :
    ∀ fuel k d, PollEvent.sleep d ∈
        (expectLoop tmpl frames clock deadline timeout fuel k).1 →
      d = timeout / 10 := by
  intro fuel
  induction fuel with
  | zero => intro k d hd; simp [expectLoop] at hd
  | succ n ih =>
      intro k d hd
      simp only [expectLoop] at hd
      by_cases h1 : (find (frames k) (some tmpl)).coord_list.length = 1
      · simp [h1] at hd
      · by_cases h2 : clock (k + 1) > deadline
        · simp [h1, h2] at hd
        · simp only [h1, h2, if_false, if_neg, List.mem_cons] at hd
          rcases hd with hd | hd | hd
          · exact absurd hd (by simp)
          · exact PollEvent.sleep.inj hd
          · exact ih (k + 1) d hd

theorem expectLoop_outcome (tmpl : Image) (frames : Nat → Image)
    (clock : Nat → ℚ) (deadline timeout : ℚ) :
    ∀ fuel k,
      (∀ msg fr,
        (expectLoop tmpl frames clock deadline timeout fuel k).2 =
          some (Except.error (msg, fr)) →
        fr.coord_list.length ≠ 1 ∧
        msg = (if fr.coord_list.length > 1 then "image found multiple times"
               else "image not found") ∧
        (expectLoop tmpl frames clock deadline timeout fuel k).1.getLast? =
          some (PollEvent.findAttempt fr)) ∧
      (∀ c,
        (expectLoop tmpl frames clock deadline timeout fuel k).2 =
          some (Except.ok c) →
        ∃ j, (find (frames j) (some tmpl)).coord_list.length = 1 ∧
          c = centroid (find (frames j) (some tmpl)).coord_list.headI) := by
  intro fuel
  induction fuel with
  | zero =>
      intro k
      constructor
      · intro msg fr herr; simp [expectLoop] at herr
      · intro c hok; simp [expectLoop] at hok
  | succ n ih =>
      intro k
      constructor
      · intro msg fr herr
        simp only [expectLoop] at herr ⊢
        by_cases h1 : (find (frames k) (some tmpl)).coord_list.length = 1
        · simp [h1] at herr
        · by_cases h2 : clock (k + 1) > deadline
          · simp only [h1, h2, if_false, if_true, if_neg, if_pos,
              Option.some.injEq, Except.error.injEq, Prod.mk.injEq] at herr
            obtain ⟨hmsg, hfr⟩ := herr
            subst hfr
            refine ⟨h1, hmsg.symm, ?_⟩
            simp [h1, h2]
          · simp only [h1, h2, if_false, if_neg] at herr ⊢
            obtain ⟨hne, hmsg, hlast⟩ := (ih (k + 1)).1 msg fr herr
            refine ⟨hne, hmsg, ?_⟩
            rw [List.getLast?_cons_cons]
            rcases hrest : (expectLoop tmpl frames clock deadline timeout n
                (k + 1)).1 with _ | ⟨a, as⟩
            · rw [hrest] at hlast; simp at hlast
            · rw [hrest] at hlast
              rw [List.getLast?_cons_cons]
              exact hlast
      · intro c hok
        simp only [expectLoop] at hok
        by_cases h1 : (find (frames k) (some tmpl)).coord_list.length = 1
        · simp only [h1, if_pos, if_true, Option.some.injEq,
            Except.ok.injEq] at hok
          exact ⟨k, h1, hok.symm⟩
        · by_cases h2 : clock (k + 1) > deadline
          · simp [h1, h2] at hok
          · simp only [h1, h2, if_false, if_neg] at hok
            exact (ih (k + 1)).2 c hok

/-! ### Claim theorems -/

/-- C1 counterexample: on a 2×3 all-black frame with a 2×2 all-black
template there are two raw hits at Manhattan distance 1 whose template-sized
candidate rectangles overlap, yet `find` returns two boxes, not one merged
BoundingBox. -/
theorem adjacent_hits_not_merged :
    isHit (solidImage 2 3 (0, 0, 0)) (solidImage 2 2 (0, 0, 0)) 0 0 = true ∧
    isHit (solidImage 2 3 (0, 0, 0)) (solidImage 2 2 (0, 0, 0)) 0 1 = true ∧
    (find (solidImage 2 3 (0, 0, 0))
        (some (solidImage 2 2 (0, 0, 0)))).coord_list =
      [(0, 0, 1, 1), (1, 0, 2, 1)] := by
  decide

/-- C1 (amended): `find` performs no merging of touching candidate
rectangles: the box list contains exactly one template-sized box per
raw-hit pixel, anchored at that pixel, so touching or overlapping candidate
rectangles all appear individually (and raw hits farther apart than one
template dimension still yield distinct boxes). -/
theorem coord_list_one_box_per_raw_hit (screen tmpl : Image) (l t r b : Int) :
    ((l, t, r, b) ∈ (find screen (some tmpl)).coord_list ↔
      ∃ x y : Nat, x < screen.w - tmpl.w + 1 ∧ y < screen.h - tmpl.h + 1 ∧
        isHit screen tmpl y x = true ∧ l = x ∧ t = y ∧
        r = (x : Int) + tmpl.w - 1 ∧ b = (y : Int) + tmpl.h - 1) ∧
    (find screen (some tmpl)).coord_list.length =
      (hitList screen tmpl).length := by
  refine ⟨mem_coord_list screen tmpl l t r b, ?_⟩
  simp [find]

/-- C2 counterexample: for a 3×3 frame and a 2×2 template the match array
attached by `find` has 2 rows while the frame has height 3, so the
MatchMask does not have the dimensions of the frame. -/
theorem matches_dims_counterexample :
    (find (solidImage 3 3 (0, 0, 0))
        (some (solidImage 2 2 (0, 0, 0)))).matches_ =
      some (matchesMask (solidImage 3 3 (0, 0, 0)) (solidImage 2 2 (0, 0, 0))) ∧
    (matchesMask (solidImage 3 3 (0, 0, 0))
        (solidImage 2 2 (0, 0, 0))).length = 2 ∧
    (solidImage 3 3 (0, 0, 0)).h = 3 := by
  decide

/-- C2 (amended): the match array attached by `find` has the dimensions of
the `cv2.matchTemplate` result, (H−h+1) × (W−w+1) — one entry per alignment
where the template fully fits — not the H × W of the frame; alignments where the
template would not fit are not represented at all. -/
theorem matches_dims (screen tmpl : Image)
    (_hh : tmpl.h ≤ screen.h) (_hw : tmpl.w ≤ screen.w) :
    ∃ m, (find screen (some tmpl)).matches_ = some m ∧
      m.length = screen.h - tmpl.h + 1 ∧
      ∀ row ∈ m, row.length = screen.w - tmpl.w + 1 := by
  refine ⟨matchesMask screen tmpl, rfl, ?_, ?_⟩
  · simp [matchesMask]
  · intro row hrow
    simp only [matchesMask, List.mem_map] at hrow
    obtain ⟨y, _, rfl⟩ := hrow
    simp

theorem matches_dims_witness :
    ((solidImage 2 2 (0, 0, 0) : Image).h ≤ (solidImage 3 3 (0, 0, 0) : Image).h ∧
     (solidImage 2 2 (0, 0, 0) : Image).w ≤ (solidImage 3 3 (0, 0, 0) : Image).w) ∧
    ∃ m, (find (solidImage 3 3 (0, 0, 0))
        (some (solidImage 2 2 (0, 0, 0)))).matches_ = some m ∧
      m.length = (solidImage 3 3 (0, 0, 0) : Image).h -
        (solidImage 2 2 (0, 0, 0) : Image).h + 1 ∧
      ∀ row ∈ m, row.length = (solidImage 3 3 (0, 0, 0) : Image).w -
        (solidImage 2 2 (0, 0, 0) : Image).w + 1 :=
  ⟨⟨by decide, by decide⟩,
   matches_dims (solidImage 3 3 (0, 0, 0)) (solidImage 2 2 (0, 0, 0))
     (by decide) (by decide)⟩

/-- C5: every box (l, t, r, b) in the list returned by `find` satisfies
r − l + 1 = template width and b − t + 1 = template height. -/
theorem box_size_eq_template (screen tmpl : Image) (l t r b : Int)
    (hmem : (l, t, r, b) ∈ (find screen (some tmpl)).coord_list) :
    r - l + 1 = (tmpl.w : Int) ∧ b - t + 1 = (tmpl.h : Int) := by
  obtain ⟨x, y, _, _, _, rfl, rfl, rfl, rfl⟩ :=
    (mem_coord_list screen tmpl l t r b).mp hmem
  constructor <;> ring

theorem box_size_eq_template_witness :
    (0, 0, 0, 0) ∈ (find (solidImage 1 1 (0, 0, 0))
        (some (solidImage 1 1 (0, 0, 0)))).coord_list ∧
    ((0 : Int) - 0 + 1 = ((solidImage 1 1 (0, 0, 0) : Image).w : Int) ∧
     (0 : Int) - 0 + 1 = ((solidImage 1 1 (0, 0, 0) : Image).h : Int)) :=
  ⟨by decide,
   box_size_eq_template (solidImage 1 1 (0, 0, 0)) (solidImage 1 1 (0, 0, 0))
     0 0 0 0 (by decide)⟩

/-- C6: with no search image, `find` returns a result holding only the
captured screen: no search image, no match array, and an empty box list;
this is a total function of the screen, never a failure. -/
theorem find_absent_frame_only (screen : Image) :
    find screen none = ⟨none, screen, none, []⟩ := rfl

/-- C7: on the 10×10 black frame with a 2×2 white square at (3,3)-(4,4)
and the 2×2 white template, `find` returns exactly the box list
[(3,3,4,4)], and `expect_single_img` returns its centroid
((3+4)//2, (3+4)//2) = (3,3) by floor division. -/
theorem concrete_square_scenario :
    (find frameWithSquare (some whiteTemplate)).coord_list = [(3, 3, 4, 4)] ∧
    centroid (3, 3, 4, 4) = (3, 3) ∧
    (expect_single_img whiteTemplate (fun _ => frameWithSquare)
        (fun n => (n : ℚ)) 0 1).2 = some (Except.ok (3, 3)) :=
  ⟨by decide, by decide, rfl⟩

/-- C3: with timeout 0 (and real time strictly advancing between the
deadline computation and the first deadline check), `expect_single_img`
performs exactly one find attempt and never sleeps — returning the centroid
when that attempt yields exactly one box and failing without retrying
otherwise — and in any run every sleep before a retry lasts exactly
0.1 × timeout seconds. -/
theorem expect_single_timeout_zero (tmpl : Image) (frames : Nat → Image)
    (clock : Nat → ℚ) (fuel : Nat) (hfuel : 1 ≤ fuel)
    (hclock : clock 0 < clock 1) :
    (expect_single_img tmpl frames clock 0 fuel).1 =
      [PollEvent.findAttempt (find (frames 0) (some tmpl))] ∧
    ((find (frames 0) (some tmpl)).coord_list.length = 1 →
      (expect_single_img tmpl frames clock 0 fuel).2 =
        some (Except.ok
          (centroid (find (frames 0) (some tmpl)).coord_list.headI))) ∧
    ((find (frames 0) (some tmpl)).coord_list.length ≠ 1 →
      (expect_single_img tmpl frames clock 0 fuel).2 =
        some (Except.error
          ((if (find (frames 0) (some tmpl)).coord_list.length > 1
            then "image found multiple times" else "image not found"),
           find (frames 0) (some tmpl)))) ∧
    (∀ d, PollEvent.sleep d ∉ (expect_single_img tmpl frames clock 0 fuel).1) ∧
    (∀ tmo fuel' k d, PollEvent.sleep d ∈
        (expectLoop tmpl frames clock (clock 0 + tmo) tmo fuel' k).1 →
      d = tmo / 10) := by
  obtain ⟨n, rfl⟩ : ∃ n, fuel = n + 1 := ⟨fuel - 1, by omega⟩
  have hdl : clock (0 + 1) > clock 0 + 0 := by simpa using hclock
  by_cases h : (find (frames 0) (some tmpl)).coord_list.length = 1
  · refine ⟨?_, ?_, ?_, ?_, ?_⟩
    · simp only [expect_single_img, expectLoop]
      simp [h]
    · intro _
      simp only [expect_single_img, expectLoop]
      simp [h]
    · intro hne
      exact absurd h hne
    · intro d
      simp only [expect_single_img, expectLoop]
      simp [h]
    · intro tmo
      exact expectLoop_sleep_duration tmpl frames clock (clock 0 + tmo) tmo
  · refine ⟨?_, ?_, ?_, ?_, ?_⟩
    · simp only [expect_single_img, expectLoop]
      simp [h, hclock]
    · intro h1
      exact absurd h1 h
    · intro _
      simp only [expect_single_img, expectLoop]
      simp [h, hclock]
    · intro d
      simp only [expect_single_img, expectLoop]
      simp [h, hclock]
    · intro tmo
      exact expectLoop_sleep_duration tmpl frames clock (clock 0 + tmo) tmo

theorem expect_single_timeout_zero_witness :
    (1 ≤ 1 ∧ ((fun n => (n : ℚ)) 0 < (fun n => (n : ℚ)) 1)) ∧
    ((expect_single_img whiteTemplate (fun _ => frameWithSquare)
        (fun n => (n : ℚ)) 0 1).1 =
      [PollEvent.findAttempt (find frameWithSquare (some whiteTemplate))]) ∧
    ((find frameWithSquare (some whiteTemplate)).coord_list.length = 1 →
      (expect_single_img whiteTemplate (fun _ => frameWithSquare)
          (fun n => (n : ℚ)) 0 1).2 =
        some (Except.ok
          (centroid (find frameWithSquare (some whiteTemplate)).coord_list.headI))) :=
  ⟨⟨le_refl 1, by norm_num⟩,
   (expect_single_timeout_zero whiteTemplate (fun _ => frameWithSquare)
      (fun n => (n : ℚ)) 1 (le_refl 1) (by norm_num)).1,
   (expect_single_timeout_zero whiteTemplate (fun _ => frameWithSquare)
      (fun n => (n : ℚ)) 1 (le_refl 1) (by norm_num)).2.1⟩

/-- C4: for every alignment (y, x) at which the template fully fits, the
match array built by `find` marks a raw hit (entry 1) if and only if the
squared pixel-difference sum at that alignment is at most
0.5 × (template height × template width); smaller sums mean better matches
and entries are 0 otherwise. -/
theorem raw_hit_iff_threshold (screen tmpl : Image) (y x : Nat)
    (hy : y < screen.h - tmpl.h + 1) (hx : x < screen.w - tmpl.w + 1) :
    ((((find screen (some tmpl)).matches_.getD []).getD y []).getD x 0 = 1 ↔
      (sqdiffAt screen tmpl y x : ℚ) ≤
        0.5 * ((tmpl.h : ℚ) * (tmpl.w : ℚ))) := by
  have hentry : (((find screen (some tmpl)).matches_.getD []).getD y []).getD
      x 0 = if isHit screen tmpl y x then 1 else 0 := by
    have hm : (find screen (some tmpl)).matches_ =
        some (matchesMask screen tmpl) := rfl
    rw [hm]
    exact matchesMask_entry screen tmpl y x hy hx
  rw [hentry, ← threshold_rat_iff, ← isHit_iff]
  by_cases h : isHit screen tmpl y x = true <;> simp [h]

theorem raw_hit_iff_threshold_witness :
    (0 < (solidImage 1 1 (0, 0, 0) : Image).h -
       (solidImage 1 1 (0, 0, 0) : Image).h + 1 ∧
     0 < (solidImage 1 1 (0, 0, 0) : Image).w -
       (solidImage 1 1 (0, 0, 0) : Image).w + 1) ∧
    ((((find (solidImage 1 1 (0, 0, 0))
        (some (solidImage 1 1 (0, 0, 0)))).matches_.getD []).getD 0 []).getD
          0 0 = 1 ↔
      (sqdiffAt (solidImage 1 1 (0, 0, 0)) (solidImage 1 1 (0, 0, 0)) 0 0 : ℚ) ≤
        0.5 * (((solidImage 1 1 (0, 0, 0) : Image).h : ℚ) *
          ((solidImage 1 1 (0, 0, 0) : Image).w : ℚ))) :=
  ⟨⟨by decide, by decide⟩,
   raw_hit_iff_threshold (solidImage 1 1 (0, 0, 0)) (solidImage 1 1 (0, 0, 0))
     0 0 (by decide) (by decide)⟩

/-- C8: whenever the loop of `expect_single_img` ends in failure, the
message handed to the failure path together with the last-iteration
`FindResult` is "image found multiple times" when that final result has
more than one box and "image not found" when it has zero; failure never
carries a coordinate, and a returned coordinate only arises from an
iteration whose box count is exactly 1, as that box's centroid. -/
theorem expect_failure_classification (tmpl : Image) (frames : Nat → Image)
    (clock : Nat → ℚ) (timeout : ℚ) (fuel : Nat) :
    (∀ msg fr,
      (expect_single_img tmpl frames clock timeout fuel).2 =
        some (Except.error (msg, fr)) →
      fr.coord_list.length ≠ 1 ∧
      msg = (if fr.coord_list.length > 1 then "image found multiple times"
             else "image not found") ∧
      (expect_single_img tmpl frames clock timeout fuel).1.getLast? =
        some (PollEvent.findAttempt fr)) ∧
    (∀ c,
      (expect_single_img tmpl frames clock timeout fuel).2 =
        some (Except.ok c) →
      ∃ j, (find (frames j) (some tmpl)).coord_list.length = 1 ∧
        c = centroid (find (frames j) (some tmpl)).coord_list.headI) :=
  expectLoop_outcome tmpl frames clock (clock 0 + timeout) timeout fuel 0

theorem expect_failure_classification_witness :
    ((find (solidImage 2 2 (0, 0, 0)) (some whiteTemplate)).coord_list.length
        ≠ 1 ∧
     "image not found" =
       (if (find (solidImage 2 2 (0, 0, 0))
           (some whiteTemplate)).coord_list.length > 1
        then "image found multiple times" else "image not found") ∧
     (expect_single_img whiteTemplate (fun _ => solidImage 2 2 (0, 0, 0))
         (fun n => (n : ℚ)) 0 1).1.getLast? =
       some (PollEvent.findAttempt
         (find (solidImage 2 2 (0, 0, 0)) (some whiteTemplate)))) ∧
    (∃ _j : Nat, (find frameWithSquare (some whiteTemplate)).coord_list.length = 1 ∧
      ((3 : Int), (3 : Int)) =
        centroid (find frameWithSquare (some whiteTemplate)).coord_list.headI) :=
  ⟨(expect_failure_classification whiteTemplate
      (fun _ => solidImage 2 2 (0, 0, 0)) (fun n => (n : ℚ)) 0 1).1
      "image not found" (find (solidImage 2 2 (0, 0, 0)) (some whiteTemplate))
      (by
        simp only [expect_single_img, expectLoop]
        rw [if_neg (by decide), if_pos (by norm_num), if_neg (by decide)]),
   (expect_failure_classification whiteTemplate (fun _ => frameWithSquare)
      (fun n => (n : ℚ)) 0 1).2 ((3 : Int), (3 : Int)) (by rfl)⟩

/-- C9: when the template file name does not name an existing file,
`find_img` fails immediately with the assertion message, and performs no
screen capture and no matching at all — the missing file is a precondition
failure, not an empty search result. -/
theorem find_img_missing_file (fs : String → Option Image) (screen : Image)
    (imgname : String) (hmiss : fs imgname = none) :
    find_img fs screen imgname =
      ([], Except.error ("image file " ++ imgname ++ " is missing")) ∧
    ∀ e, e ∉ (find_img fs screen imgname).1 := by
  refine ⟨?_, ?_⟩
  · simp [find_img, hmiss]
  · intro e
    simp [find_img, hmiss]

theorem find_img_missing_file_witness :
    ((fun _ : String => (none : Option Image)) "button.png" =
      (none : Option Image)) ∧
    (find_img (fun _ => none) (solidImage 1 1 (0, 0, 0)) "button.png" =
      ([], Except.error ("image file " ++ "button.png" ++ " is missing")) ∧
     ∀ e, e ∉ (find_img (fun _ => none) (solidImage 1 1 (0, 0, 0))
        "button.png").1) :=
  ⟨rfl,
   find_img_missing_file (fun _ => none) (solidImage 1 1 (0, 0, 0))
     "button.png" rfl⟩

/-- C10: when the template is nonempty and fits in the frame, every box
returned by `find` lies fully inside the frame, and the centroid
`expect_single_img` computes from such a box is an in-frame pixel
coordinate. -/
theorem box_within_frame (screen tmpl : Image)
    (hh1 : 1 ≤ tmpl.h) (hw1 : 1 ≤ tmpl.w)
    (hhs : tmpl.h ≤ screen.h) (hws : tmpl.w ≤ screen.w)
    (l t r b : Int)
    (hmem : (l, t, r, b) ∈ (find screen (some tmpl)).coord_list) :
    (0 ≤ l ∧ l ≤ r ∧ r ≤ (screen.w : Int) - 1 ∧
     0 ≤ t ∧ t ≤ b ∧ b ≤ (screen.h : Int) - 1) ∧
    (0 ≤ (centroid (l, t, r, b)).1 ∧
     (centroid (l, t, r, b)).1 ≤ (screen.w : Int) - 1 ∧
     0 ≤ (centroid (l, t, r, b)).2 ∧
     (centroid (l, t, r, b)).2 ≤ (screen.h : Int) - 1) := by
  obtain ⟨x, y, hx, hy, _, rfl, rfl, rfl, rfl⟩ :=
    (mem_coord_list screen tmpl l t r b).mp hmem
  constructor
  · omega
  · simp only [centroid]
    rw [Int.fdiv_eq_ediv _ (by norm_num : (0 : Int) ≤ 2),
      Int.fdiv_eq_ediv _ (by norm_num : (0 : Int) ≤ 2)]
    omega

theorem box_within_frame_witness :
    (1 ≤ (solidImage 1 1 (0, 0, 0) : Image).h ∧
     1 ≤ (solidImage 1 1 (0, 0, 0) : Image).w ∧
     (0, 0, 0, 0) ∈ (find (solidImage 1 1 (0, 0, 0))
        (some (solidImage 1 1 (0, 0, 0)))).coord_list) ∧
    ((0 ≤ (0 : Int) ∧ (0 : Int) ≤ 0 ∧
      (0 : Int) ≤ ((solidImage 1 1 (0, 0, 0) : Image).w : Int) - 1 ∧
      0 ≤ (0 : Int) ∧ (0 : Int) ≤ 0 ∧
      (0 : Int) ≤ ((solidImage 1 1 (0, 0, 0) : Image).h : Int) - 1) ∧
     (0 ≤ (centroid (0, 0, 0, 0)).1 ∧
      (centroid (0, 0, 0, 0)).1 ≤
        ((solidImage 1 1 (0, 0, 0) : Image).w : Int) - 1 ∧
      0 ≤ (centroid (0, 0, 0, 0)).2 ∧
      (centroid (0, 0, 0, 0)).2 ≤
        ((solidImage 1 1 (0, 0, 0) : Image).h : Int) - 1)) :=
  ⟨⟨by decide, by decide, by decide⟩,
   box_within_frame (solidImage 1 1 (0, 0, 0)) (solidImage 1 1 (0, 0, 0))
     (by decide) (by decide) (by decide) (by decide) 0 0 0 0 (by decide)⟩

end VncMatch
